import Mathlib

/-!
# The pose trigger state machine of `script.js`

A shallow embedding of the trigger logic of the pose-detection page:
`setModelURL`, `checkPose`, `triggerExplosion`, the cooldown callback handed
to `setTimeout`, and the per-frame loop of `predict`.

Modelling conventions.

* JavaScript numbers that reach the trigger logic (`video.currentTime`,
  `prediction.probability`) are finite doubles; every finite double is a
  rational number and `<`, `>`, `<=`, `>=` on finite doubles agree with the
  order of the rationals, so they are values of `ℚ` here.  The literal `0.8`
  denotes the double nearest to four fifths, `confidenceThreshold`.  `NaN`
  and the infinities are not values of the model.
* The globals `URL`, `poseStates`, `explosionActive` are fields of `State`.
  `poseStates` maps a property name to `none` (no such property) or to
  `some b` (the object `{ triggered: b }`).
* `timers` is the queue of callbacks scheduled with `setTimeout` and not yet
  run, each recorded by its delay in milliseconds.
* `explosions` is the trace of `triggerExplosion` calls (each of which plays
  the sound once): one entry per call, the property name of the pose state
  that was passed.
-/

namespace PoseTrigger

/-- One element of the array returned by `model.predict`. -/
structure Prediction where
  className : String
  probability : ℚ

/-- The part of the video element that `checkPose` reads. -/
structure Video where
  currentTime : ℚ

/-- The mutable globals of the script together with the pending timers and
the trace of explosions. -/
structure State where
  URL : String
  poseStates : String → Option Bool
  explosionActive : Bool
  timers : List Nat
  explosions : List String

/-- The globals as the script's top level leaves them. -/
def initialState : State where
  URL := "https://teachablemachine.withgoogle.com/models/t594TCPs4/"
  poseStates := fun _ => none
  explosionActive := false
  timers := []
  explosions := []

/-- `setModelURL(url)`: lines 19-23. -/
def setModelURL (url : String) (σ : State) : State :=
  { σ with URL := url, poseStates := fun _ => none, explosionActive := false }

/-- `s.toLowerCase()`.  Only the mapping of `A`..`Z` is modelled: no other
character lower-cases to a digit or to one of the letters `p`, `o`, `s`, `e`,
which is all that `checkPose` looks at in the result. -/
def toLowerCase (s : String) : String :=
  ⟨s.data.map Char.toLower⟩

/-- `s.replace(/[^0-9]/g, '')`: drop every character that is not an ASCII
digit. -/
def replaceNonDigits (s : String) : String :=
  ⟨s.data.filter Char.isDigit⟩

/-- Substring test on character lists. -/
def includesChars : List Char → List Char → Bool
  | [], pat => pat.isEmpty
  | c :: cs, pat => pat.isPrefixOf (c :: cs) || includesChars cs pat

/-- `s.includes(pat)`. -/
def includes (s pat : String) : Bool :=
  includesChars s.data pat.data

/-- The numeric value JavaScript gives a string of ASCII digits when it is
compared with a number: its decimal value, `0` for the empty string.  The
conversion rounds to a double, which is monotone and exact at `1` and `6`, so
the comparisons `>= 1` and `<= 6` agree with those on the exact value. -/
def toNumber (s : String) : Nat :=
  s.data.foldl (fun n c => 10 * n + (c.toNat - 48)) 0

/-- The constant `poseNumber` of `checkPose`: line 98. -/
def poseNumber (className : String) : String :=
  replaceNonDigits (toLowerCase className)

/-- The constant `isPoseLabel` of `checkPose`: line 99. -/
def isPoseLabel (className : String) : Bool :=
  includes (toLowerCase className) "pose"
    && decide (toNumber (poseNumber className) ≥ 1)
    && decide (toNumber (poseNumber className) ≤ 6)

/-- The property name used for a pose: the template string of lines 103-109. -/
def poseKey (className : String) : String :=
  "pose" ++ poseNumber className

/-- The object literal `poseTimeWindows`: lines 112-119. -/
def poseTimeWindows (k : String) : Option (ℚ × ℚ) :=
  if k = "1" then some (22, 23)
  else if k = "2" then some (25, 26)
  else if k = "3" then some (33, 34)
  else if k = "4" then some (37, 38)
  else if k = "5" then some (42, 43)
  else if k = "6" then some (58, 59)
  else none

/-- The double denoted by the literal `0.8`. -/
def confidenceThreshold : ℚ :=
  3602879701896397 / 4503599627370496

/-- Assignment `poseStates[key].triggered = b`. -/
def setTriggered (σ : State) (key : String) (b : Bool) : State :=
  { σ with poseStates := fun k => if k = key then some b else σ.poseStates k }

/-- The value of `poseStates[key].triggered` for an existing entry; an absent
entry reads as not triggered. -/
def triggered (σ : State) (key : String) : Bool :=
  σ.poseStates key == some true

/-- Lines 103-107: create `{ triggered: false }` when the property is
missing. -/
def ensurePoseState (σ : State) (key : String) : State :=
  if (σ.poseStates key).isNone then setTriggered σ key false else σ

/-- `triggerExplosion(poseState)`: lines 136-141, for the pose state stored
under `key`. -/
def triggerExplosion (σ : State) (key : String) : State :=
  let σ1 := { σ with explosionActive := true }
  let σ2 := setTriggered σ1 key true
  let σ3 := { σ2 with explosions := σ2.explosions ++ [key] }
  { σ3 with timers := σ3.timers ++ [300] }

/-- `checkPose(prediction, video)`: lines 93-134. -/
def checkPose (prediction : Prediction) (video : Video) (σ : State) : State :=
  let time := video.currentTime
  let prob := prediction.probability
  if !isPoseLabel prediction.className then σ
  else
    let key := poseKey prediction.className
    let σ1 := ensurePoseState σ key
    match poseTimeWindows (poseNumber prediction.className) with
    | none => σ1
    | some (startTime, endTime) =>
      let σ2 :=
        if decide (time < startTime) || decide (time > endTime) then
          setTriggered σ1 key false
        else σ1
      if decide (time ≥ startTime) && decide (time ≤ endTime)
          && decide (prob > confidenceThreshold)
          && !triggered σ2 key && !σ2.explosionActive then
        triggerExplosion σ2 key
      else σ2

/-- The callback `() => { explosionActive = false; }` of line 140, run for
the oldest pending timer; nothing runs when no timer is pending. -/
def cooldownExpired (σ : State) : State :=
  match σ.timers with
  | [] => σ
  | _ :: rest => { σ with explosionActive := false, timers := rest }

/-- The loop of `predict`, lines 78-85: `checkPose` on every prediction in
order, all against the same video element. -/
def predictLoop (prediction : List Prediction) (video : Video) (σ : State) : State :=
  prediction.foldl (fun s p => checkPose p video s) σ

/-- An event of the trigger state machine: a `checkPose` call or the expiry
of a cooldown timer. -/
inductive Step where
  | call (prediction : Prediction) (video : Video)
  | expire

/-- Effect of one event. -/
def step (σ : State) : Step → State
  | .call p v => checkPose p v σ
  | .expire => cooldownExpired σ

/-- Effect of a sequence of events. -/
def run (steps : List Step) (σ : State) : State :=
  steps.foldl step σ

/-- Whether `checkPose` calls `triggerExplosion` on this input. -/
def fires (prediction : Prediction) (video : Video) (σ : State) : Bool :=
  decide ((checkPose prediction video σ).explosions.length = σ.explosions.length + 1)

/-- The flag `explosionActive` is set exactly while one cooldown timer, of
300 ms, is pending. -/
def CooldownInv (σ : State) : Prop :=
  (σ.explosionActive = true ∧ σ.timers = [300])
    ∨ (σ.explosionActive = false ∧ σ.timers = [])

/-- A frame with one prediction for each of the six poses, the third held
with confidence 0.9. -/
def exampleFrame : List Prediction :=
  [⟨"Pose 1", 1 / 100⟩, ⟨"Pose 2", 1 / 100⟩, ⟨"Pose 3", 9 / 10⟩, ⟨"Pose 4", 1 / 100⟩,
    ⟨"Pose 5", 3 / 100⟩, ⟨"Pose 6", 1 / 25⟩]

/-- A run in which "Pose 3" is held with confidence 0.85 at 33.5 s, the
cooldown expires, and the same prediction arrives again. -/
def exampleRun : List Step :=
  [Step.call ⟨"Pose 3", 17 / 20⟩ ⟨67 / 2⟩, Step.expire,
    Step.call ⟨"Pose 3", 17 / 20⟩ ⟨67 / 2⟩]

/-! ## Basic facts about the helpers -/

@[simp] theorem setTriggered_poseStates (σ : State) (key k : String) (b : Bool) :
    (setTriggered σ key b).poseStates k = if k = key then some b else σ.poseStates k := rfl

@[simp] theorem setTriggered_explosionActive (σ : State) (key : String) (b : Bool) :
    (setTriggered σ key b).explosionActive = σ.explosionActive := rfl

@[simp] theorem setTriggered_timers (σ : State) (key : String) (b : Bool) :
    (setTriggered σ key b).timers = σ.timers := rfl

@[simp] theorem setTriggered_explosions (σ : State) (key : String) (b : Bool) :
    (setTriggered σ key b).explosions = σ.explosions := rfl

@[simp] theorem setTriggered_URL (σ : State) (key : String) (b : Bool) :
    (setTriggered σ key b).URL = σ.URL := rfl

@[simp] theorem ensurePoseState_explosionActive (σ : State) (key : String) :
    (ensurePoseState σ key).explosionActive = σ.explosionActive := by
  unfold ensurePoseState; split <;> rfl

@[simp] theorem ensurePoseState_timers (σ : State) (key : String) :
    (ensurePoseState σ key).timers = σ.timers := by
  unfold ensurePoseState; split <;> rfl

@[simp] theorem ensurePoseState_explosions (σ : State) (key : String) :
    (ensurePoseState σ key).explosions = σ.explosions := by
  unfold ensurePoseState; split <;> rfl

@[simp] theorem ensurePoseState_URL (σ : State) (key : String) :
    (ensurePoseState σ key).URL = σ.URL := by
  unfold ensurePoseState; split <;> rfl

theorem ensurePoseState_poseStates_ne (σ : State) (key k : String) (h : k ≠ key) :
    (ensurePoseState σ key).poseStates k = σ.poseStates k := by
  unfold ensurePoseState; split <;> simp [h]

theorem ensurePoseState_poseStates_self (σ : State) (key : String) :
    (ensurePoseState σ key).poseStates key = some ((σ.poseStates key).getD false) := by
  unfold ensurePoseState
  cases h : σ.poseStates key <;> simp [h]

@[simp] theorem ensurePoseState_triggered (σ : State) (key k : String) :
    triggered (ensurePoseState σ key) k = triggered σ k := by
  unfold triggered
  by_cases h : k = key
  · subst h
    rw [ensurePoseState_poseStates_self]
    cases h2 : σ.poseStates k <;> simp
  · rw [ensurePoseState_poseStates_ne σ key k h]

theorem ensurePoseState_of_some (σ : State) (key : String) (b : Bool)
    (h : σ.poseStates key = some b) : ensurePoseState σ key = σ := by
  unfold ensurePoseState; simp [h]

@[simp] theorem triggerExplosion_explosionActive (σ : State) (key : String) :
    (triggerExplosion σ key).explosionActive = true := rfl

@[simp] theorem triggerExplosion_timers (σ : State) (key : String) :
    (triggerExplosion σ key).timers = σ.timers ++ [300] := rfl

@[simp] theorem triggerExplosion_explosions (σ : State) (key : String) :
    (triggerExplosion σ key).explosions = σ.explosions ++ [key] := rfl

@[simp] theorem triggerExplosion_poseStates (σ : State) (key k : String) :
    (triggerExplosion σ key).poseStates k = if k = key then some true else σ.poseStates k := rfl

@[simp] theorem triggerExplosion_URL (σ : State) (key : String) :
    (triggerExplosion σ key).URL = σ.URL := rfl

/-- The six property names of the window table are the only ones with a
window. -/
theorem poseTimeWindows_isSome (k : String) (w : ℚ × ℚ) (h : poseTimeWindows k = some w) :
    k = "1" ∨ k = "2" ∨ k = "3" ∨ k = "4" ∨ k = "5" ∨ k = "6" := by
  unfold poseTimeWindows at h
  by_cases h1 : k = "1"; · exact Or.inl h1
  by_cases h2 : k = "2"; · exact Or.inr (Or.inl h2)
  by_cases h3 : k = "3"; · exact Or.inr (Or.inr (Or.inl h3))
  by_cases h4 : k = "4"; · exact Or.inr (Or.inr (Or.inr (Or.inl h4)))
  by_cases h5 : k = "5"; · exact Or.inr (Or.inr (Or.inr (Or.inr (Or.inl h5))))
  by_cases h6 : k = "6"; · exact Or.inr (Or.inr (Or.inr (Or.inr (Or.inr h6))))
  simp [h1, h2, h3, h4, h5, h6] at h

/-- The threshold is a 53-bit binary fraction within half a unit in the last
place of four fifths, and lies above it. -/
theorem confidenceThreshold_nearest :
    confidenceThreshold = 7205759403792794 / 2 ^ 53
      ∧ 4 / 5 < confidenceThreshold
      ∧ confidenceThreshold - 4 / 5 ≤ 1 / 2 ^ 54 := by
  unfold confidenceThreshold
  norm_num

/-- A label that contains "pose" and whose digits spell a number from 1 to 6
passes the test of line 99. -/
theorem isPoseLabel_of_pose (c : String) (d : Nat) (h1 : 1 ≤ d) (h6 : d ≤ 6)
    (hp : includes (toLowerCase c) "pose" = true) (hd : poseNumber c = toString d) :
    isPoseLabel c = true := by
  unfold isPoseLabel
  rw [hp, hd]
  interval_cases d <;> decide

/-- The window table at the six poses. -/
theorem poseTimeWindows_pose (d : Nat) (h1 : 1 ≤ d) (h6 : d ≤ 6) :
    ∃ s e : ℚ, poseTimeWindows (toString d) = some (s, e) ∧ s < e ∧
      (d = 1 ∧ s = 22 ∧ e = 23 ∨ d = 2 ∧ s = 25 ∧ e = 26 ∨ d = 3 ∧ s = 33 ∧ e = 34
        ∨ d = 4 ∧ s = 37 ∧ e = 38 ∨ d = 5 ∧ s = 42 ∧ e = 43 ∨ d = 6 ∧ s = 58 ∧ e = 59) := by
  interval_cases d
  · exact ⟨22, 23, by decide, by norm_num, by simp⟩
  · exact ⟨25, 26, by decide, by norm_num, by simp⟩
  · exact ⟨33, 34, by decide, by norm_num, by simp⟩
  · exact ⟨37, 38, by decide, by norm_num, by simp⟩
  · exact ⟨42, 43, by decide, by norm_num, by simp⟩
  · exact ⟨58, 59, by decide, by norm_num, by simp⟩

/-! ## The four paths through `checkPose` -/

theorem checkPose_not_label (p : Prediction) (v : Video) (σ : State)
    (h : isPoseLabel p.className = false) : checkPose p v σ = σ := by
  unfold checkPose; simp [h]

theorem checkPose_no_window (p : Prediction) (v : Video) (σ : State)
    (h : isPoseLabel p.className = true)
    (hw : poseTimeWindows (poseNumber p.className) = none) :
    checkPose p v σ = ensurePoseState σ (poseKey p.className) := by
  unfold checkPose; simp [h, hw]

theorem checkPose_outside (p : Prediction) (v : Video) (σ : State) (s e : ℚ)
    (h : isPoseLabel p.className = true)
    (hw : poseTimeWindows (poseNumber p.className) = some (s, e))
    (ht : v.currentTime < s ∨ v.currentTime > e) :
    checkPose p v σ
      = setTriggered (ensurePoseState σ (poseKey p.className)) (poseKey p.className) false := by
  unfold checkPose
  simp only [h, hw]
  have h1 : (decide (v.currentTime < s) || decide (v.currentTime > e)) = true := by
    simpa using ht
  have h2 : (decide (v.currentTime ≥ s) && decide (v.currentTime ≤ e)) = false := by
    rcases ht with ht | ht
    · have : ¬ (s ≤ v.currentTime) := not_le.mpr ht
      simp [this]
    · have : ¬ (v.currentTime ≤ e) := not_le.mpr ht
      simp [this]
  simp [h1, h2]

theorem checkPose_inside (p : Prediction) (v : Video) (σ : State) (s e : ℚ)
    (h : isPoseLabel p.className = true)
    (hw : poseTimeWindows (poseNumber p.className) = some (s, e))
    (hs : s ≤ v.currentTime) (he : v.currentTime ≤ e) :
    checkPose p v σ
      = if p.probability > confidenceThreshold ∧ triggered σ (poseKey p.className) = false
            ∧ σ.explosionActive = false then
          triggerExplosion (ensurePoseState σ (poseKey p.className)) (poseKey p.className)
        else ensurePoseState σ (poseKey p.className) := by
  unfold checkPose
  simp only [h, hw]
  have h1 : (decide (v.currentTime < s) || decide (v.currentTime > e)) = false := by
    simp [not_lt.mpr hs, not_lt.mpr he]
  have h2 : (decide (v.currentTime ≥ s) && decide (v.currentTime ≤ e)) = true := by
    simp [hs, he]
  simp only [h1, h2]
  by_cases hc : p.probability > confidenceThreshold ∧ triggered σ (poseKey p.className) = false
            ∧ σ.explosionActive = false
  · rw [if_pos hc]; obtain ⟨a, b, c⟩ := hc; simp [a, b, c]
  · rw [if_neg hc]
    simp only [not_and_or] at hc
    rcases hc with a | b | c
    · simp [a]
    · simp at b; simp [b]
    · simp at c; simp [c]

/-! ## When `checkPose` fires -/

theorem fires_iff (p : Prediction) (v : Video) (σ : State) (s e : ℚ)
    (h : isPoseLabel p.className = true)
    (hw : poseTimeWindows (poseNumber p.className) = some (s, e)) :
    fires p v σ = true ↔
      (s ≤ v.currentTime ∧ v.currentTime ≤ e ∧ p.probability > confidenceThreshold
        ∧ triggered σ (poseKey p.className) = false ∧ σ.explosionActive = false) := by
  unfold fires
  by_cases hin : s ≤ v.currentTime ∧ v.currentTime ≤ e
  · rw [checkPose_inside p v σ s e h hw hin.1 hin.2]
    by_cases hc : p.probability > confidenceThreshold
        ∧ triggered σ (poseKey p.className) = false ∧ σ.explosionActive = false
    · rw [if_pos hc]; simp [hin.1, hin.2, hc.1, hc.2.1, hc.2.2]
    · rw [if_neg hc]
      simp only [ensurePoseState_explosions, decide_eq_true_eq]
      constructor
      · intro h0; omega
      · intro h0; exact absurd h0.2.2 hc
  · have ht : v.currentTime < s ∨ v.currentTime > e := by
      by_contra hn
      push_neg at hn
      exact hin ⟨hn.1, hn.2⟩
    rw [checkPose_outside p v σ s e h hw ht]
    simp only [setTriggered_explosions, ensurePoseState_explosions, decide_eq_true_eq]
    constructor
    · intro h0; omega
    · intro h0; exact absurd ⟨h0.1, h0.2.1⟩ hin

theorem fires_not_label (p : Prediction) (v : Video) (σ : State)
    (h : isPoseLabel p.className = false) : fires p v σ = false := by
  unfold fires
  rw [checkPose_not_label p v σ h]
  simp

theorem fires_no_window (p : Prediction) (v : Video) (σ : State)
    (hw : poseTimeWindows (poseNumber p.className) = none) : fires p v σ = false := by
  cases h : isPoseLabel p.className
  · exact fires_not_label p v σ h
  · unfold fires
    rw [checkPose_no_window p v σ h hw]
    simp

/-- Every call takes one of four paths: it fires, or it returns at line 101,
or it only creates the missing entry, or it resets the flag. -/
theorem checkPose_cases (p : Prediction) (v : Video) (σ : State) :
    (fires p v σ = true
        ∧ checkPose p v σ
            = triggerExplosion (ensurePoseState σ (poseKey p.className)) (poseKey p.className)
        ∧ triggered σ (poseKey p.className) = false ∧ σ.explosionActive = false)
      ∨ (fires p v σ = false
        ∧ (checkPose p v σ = σ
          ∨ checkPose p v σ = ensurePoseState σ (poseKey p.className)
          ∨ checkPose p v σ
              = setTriggered (ensurePoseState σ (poseKey p.className))
                  (poseKey p.className) false)) := by
  cases h : isPoseLabel p.className
  · exact Or.inr ⟨fires_not_label p v σ h, Or.inl (checkPose_not_label p v σ h)⟩
  · cases hw : poseTimeWindows (poseNumber p.className) with
    | none =>
      exact Or.inr ⟨fires_no_window p v σ hw, Or.inr (Or.inl (checkPose_no_window p v σ h hw))⟩
    | some w =>
      obtain ⟨s, e⟩ := w
      cases hf : fires p v σ
      · right
        refine ⟨rfl, ?_⟩
        by_cases hin : s ≤ v.currentTime ∧ v.currentTime ≤ e
        · right; left
          rw [checkPose_inside p v σ s e h hw hin.1 hin.2]
          have hc : ¬ (p.probability > confidenceThreshold
              ∧ triggered σ (poseKey p.className) = false ∧ σ.explosionActive = false) := by
            intro hc
            have := (fires_iff p v σ s e h hw).mpr ⟨hin.1, hin.2, hc⟩
            rw [hf] at this
            exact Bool.noConfusion this
          rw [if_neg hc]
        · right; right
          have ht : v.currentTime < s ∨ v.currentTime > e := by
            by_contra hn
            push_neg at hn
            exact hin ⟨hn.1, hn.2⟩
          exact checkPose_outside p v σ s e h hw ht
      · left
        have hc := (fires_iff p v σ s e h hw).mp hf
        refine ⟨rfl, ?_, hc.2.2.2.1, hc.2.2.2.2⟩
        rw [checkPose_inside p v σ s e h hw hc.1 hc.2.1, if_pos hc.2.2]

/-- A call changes `poseStates` at most at the property of its own label. -/
theorem checkPose_poseStates_ne (p : Prediction) (v : Video) (σ : State) (k : String)
    (hk : k ≠ poseKey p.className) :
    (checkPose p v σ).poseStates k = σ.poseStates k := by
  rcases checkPose_cases p v σ with ⟨_, h, _⟩ | ⟨_, h | h | h⟩ <;> rw [h]
  · simp [hk, ensurePoseState_poseStates_ne σ _ k hk]
  · exact ensurePoseState_poseStates_ne σ _ k hk
  · simp [hk, ensurePoseState_poseStates_ne σ _ k hk]

/-- A call that does not fire leaves the trace, the flag `explosionActive`
and the timers alone, and sets no flag to true. -/
theorem checkPose_not_fires (p : Prediction) (v : Video) (σ : State)
    (hf : fires p v σ = false) :
    (checkPose p v σ).explosions = σ.explosions
      ∧ (checkPose p v σ).explosionActive = σ.explosionActive
      ∧ (checkPose p v σ).timers = σ.timers
      ∧ (checkPose p v σ).URL = σ.URL
      ∧ ∀ k, triggered (checkPose p v σ) k = true → triggered σ k = true := by
  rcases checkPose_cases p v σ with ⟨h0, _⟩ | ⟨_, h | h | h⟩
  · rw [hf] at h0; exact Bool.noConfusion h0
  · rw [h]; simp
  · rw [h]; simp
  · rw [h]
    refine ⟨by simp, by simp, by simp, by simp, ?_⟩
    intro k hk
    by_cases hkk : k = poseKey p.className
    · subst hkk; simp [triggered] at hk
    · have : triggered (setTriggered (ensurePoseState σ (poseKey p.className))
          (poseKey p.className) false) k = triggered σ k := by
        unfold triggered
        simp [hkk, ensurePoseState_poseStates_ne σ _ k hkk]
      rw [← this]; exact hk

/-- Different poses use different property names. -/
theorem poseKey_ne (d d' : Nat) (h1 : 1 ≤ d) (h6 : d ≤ 6) (h1' : 1 ≤ d') (h6' : d' ≤ 6)
    (hne : d' ≠ d) : "pose" ++ toString d' ≠ "pose" ++ toString d := by
  interval_cases d <;> interval_cases d' <;> first | exact absurd rfl hne | decide

theorem poseKey_eq (c : String) (d : Nat) (hd : poseNumber c = toString d) :
    poseKey c = "pose" ++ toString d := by
  unfold poseKey; rw [hd]

/-- Outside the window the flag is reset and nothing else happens. -/
theorem checkPose_outside_reset (d : Nat) (p : Prediction) (v : Video) (σ : State) (s e : ℚ)
    (h1 : 1 ≤ d) (h6 : d ≤ 6)
    (hp : includes (toLowerCase p.className) "pose" = true)
    (hd : poseNumber p.className = toString d)
    (hw : poseTimeWindows (toString d) = some (s, e))
    (ht : v.currentTime < s ∨ v.currentTime > e) :
    (checkPose p v σ).poseStates ("pose" ++ toString d) = some false
      ∧ fires p v σ = false
      ∧ (checkPose p v σ).explosions = σ.explosions
      ∧ (checkPose p v σ).explosionActive = σ.explosionActive
      ∧ (checkPose p v σ).timers = σ.timers := by
  have hl := isPoseLabel_of_pose p.className d h1 h6 hp hd
  have hk := poseKey_eq p.className d hd
  have hw2 : poseTimeWindows (poseNumber p.className) = some (s, e) := by rw [hd]; exact hw
  have hf : fires p v σ = false := by
    cases hf : fires p v σ
    · rfl
    · have hc := (fires_iff p v σ s e hl hw2).mp hf
      rcases ht with ht | ht
      · exact absurd hc.1 (not_le.mpr ht)
      · exact absurd hc.2.1 (not_le.mpr ht)
  rw [checkPose_outside p v σ s e hl hw2 ht, hk]
  simp [hf]

/-! ## Single calls for one of the six poses -/

/-- C1: for a label that contains "pose" and whose digits spell d in 1..6,
`checkPose` calls `triggerExplosion` exactly when the playback time lies in
the closed window of d (1:[22,23], 2:[25,26], 3:[33,34], 4:[37,38],
5:[42,43], 6:[58,59]), the probability is strictly above the threshold
`0.8`, the flag of the pose was not set (or its entry did not exist) and
`explosionActive` was false; a probability equal to the threshold does not
fire; after a firing call the flag of the pose and `explosionActive` are
both true. -/
theorem checkPose_fires_iff (d : Nat) (p : Prediction) (v : Video) (σ : State)
    (h1 : 1 ≤ d) (h6 : d ≤ 6)
    (hp : includes (toLowerCase p.className) "pose" = true)
    (hd : poseNumber p.className = toString d) :
    (fires p v σ = true ↔
      ((d = 1 ∧ 22 ≤ v.currentTime ∧ v.currentTime ≤ 23)
        ∨ (d = 2 ∧ 25 ≤ v.currentTime ∧ v.currentTime ≤ 26)
        ∨ (d = 3 ∧ 33 ≤ v.currentTime ∧ v.currentTime ≤ 34)
        ∨ (d = 4 ∧ 37 ≤ v.currentTime ∧ v.currentTime ≤ 38)
        ∨ (d = 5 ∧ 42 ≤ v.currentTime ∧ v.currentTime ≤ 43)
        ∨ (d = 6 ∧ 58 ≤ v.currentTime ∧ v.currentTime ≤ 59))
      ∧ p.probability > confidenceThreshold
      ∧ triggered σ ("pose" ++ toString d) = false
      ∧ σ.explosionActive = false)
    ∧ (p.probability = confidenceThreshold → fires p v σ = false)
    ∧ (fires p v σ = true →
        (checkPose p v σ).poseStates ("pose" ++ toString d) = some true
        ∧ (checkPose p v σ).explosionActive = true) := by
  have hl := isPoseLabel_of_pose p.className d h1 h6 hp hd
  have hk := poseKey_eq p.className d hd
  obtain ⟨s, e, hw, _, htab⟩ := poseTimeWindows_pose d h1 h6
  have hw2 : poseTimeWindows (poseNumber p.className) = some (s, e) := by rw [hd]; exact hw
  have hiff := fires_iff p v σ s e hl hw2
  rw [hk] at hiff
  refine ⟨?_, ?_, ?_⟩
  · rw [hiff]
    constructor
    · rintro ⟨a, b, c⟩
      refine ⟨?_, c⟩
      rcases htab with ⟨x, y, z⟩ | ⟨x, y, z⟩ | ⟨x, y, z⟩ | ⟨x, y, z⟩ | ⟨x, y, z⟩ | ⟨x, y, z⟩
        <;> subst x y z <;> simp [a, b]
    · rintro ⟨a, c⟩
      rcases htab with ⟨x, y, z⟩ | ⟨x, y, z⟩ | ⟨x, y, z⟩ | ⟨x, y, z⟩ | ⟨x, y, z⟩ | ⟨x, y, z⟩
        <;> subst x y z <;> simp at a <;> exact ⟨a.1, a.2, c⟩
  · intro hq
    cases hf : fires p v σ
    · rfl
    · have := (hiff.mp hf).2.2.1
      rw [hq] at this
      exact absurd this (lt_irrefl _)
  · intro hf
    rcases checkPose_cases p v σ with ⟨_, h, _⟩ | ⟨h0, _⟩
    · rw [h, hk]; simp
    · rw [hf] at h0; exact Bool.noConfusion h0

/-- Instance of C1: "Pose 3" with confidence 0.85 at 33.5 s on the initial
state fires. -/
theorem checkPose_fires_iff_witness :
    (1 ≤ 3 ∧ 3 ≤ 6 ∧ includes (toLowerCase "Pose 3") "pose" = true
        ∧ poseNumber "Pose 3" = toString 3)
      ∧ fires ⟨"Pose 3", 17 / 20⟩ ⟨67 / 2⟩ initialState = true :=
  ⟨⟨by decide, by decide, by decide, by decide⟩,
    (checkPose_fires_iff 3 ⟨"Pose 3", 17 / 20⟩ ⟨67 / 2⟩ initialState (by decide) (by decide)
      (by decide) (by decide)).1.mpr
      ⟨Or.inr (Or.inr (Or.inl ⟨rfl, by norm_num, by norm_num⟩)),
        by norm_num [confidenceThreshold], by decide, rfl⟩⟩

/-- C2: for a label of pose d in 1..6 and a playback time strictly outside
the window of d, whatever the probability and the prior state, after
`checkPose` the flag of d is false, the call did not fire, and
`explosionActive` (with the pending timers) is as it was. -/
theorem checkPose_outside_window (d : Nat) (p : Prediction) (v : Video) (σ : State) (s e : ℚ)
    (h1 : 1 ≤ d) (h6 : d ≤ 6)
    (hp : includes (toLowerCase p.className) "pose" = true)
    (hd : poseNumber p.className = toString d)
    (hw : poseTimeWindows (toString d) = some (s, e))
    (ht : v.currentTime < s ∨ v.currentTime > e) :
    (checkPose p v σ).poseStates ("pose" ++ toString d) = some false
      ∧ fires p v σ = false
      ∧ (checkPose p v σ).explosions = σ.explosions
      ∧ (checkPose p v σ).explosionActive = σ.explosionActive
      ∧ (checkPose p v σ).timers = σ.timers :=
  checkPose_outside_reset d p v σ s e h1 h6 hp hd hw ht

/-- Instance of C2: pose 3 triggered and an explosion active, a call at
34.5 s with confidence 0.9. -/
theorem checkPose_outside_window_witness :
    (1 ≤ 3 ∧ 3 ≤ 6 ∧ includes (toLowerCase "Pose 3") "pose" = true
        ∧ poseNumber "Pose 3" = toString 3
        ∧ poseTimeWindows (toString 3) = some (33, 34)
        ∧ ((69 / 2 : ℚ) < 33 ∨ (69 / 2 : ℚ) > 34))
      ∧ (checkPose ⟨"Pose 3", 9 / 10⟩ ⟨69 / 2⟩
            (triggerExplosion initialState "pose3")).poseStates ("pose" ++ toString 3)
          = some false :=
  ⟨⟨by decide, by decide, by decide, by decide, by decide, Or.inr (by norm_num)⟩,
    (checkPose_outside_window 3 ⟨"Pose 3", 9 / 10⟩ ⟨69 / 2⟩
      (triggerExplosion initialState "pose3") 33 34 (by decide) (by decide) (by decide)
      (by decide) (by decide) (Or.inr (by norm_num))).1⟩

/-- C3: for a label of pose d in 1..6 and a time inside the window of d, when
the probability is at most the threshold, or the pose is already triggered,
or `explosionActive` is true, `checkPose` does not fire and the flag of d
(absent counting as false), the entry of every other property and
`explosionActive` are as before.  Moreover no call for pose d, whatever its
time, probability and prior state, modifies the entry of another property,
in particular of another pose. -/
theorem checkPose_failing_condition (d : Nat) (p : Prediction) (v : Video) (σ : State)
    (s e : ℚ) (h1 : 1 ≤ d) (h6 : d ≤ 6)
    (hp : includes (toLowerCase p.className) "pose" = true)
    (hd : poseNumber p.className = toString d)
    (hw : poseTimeWindows (toString d) = some (s, e))
    (hs : s ≤ v.currentTime) (he : v.currentTime ≤ e)
    (hfail : p.probability ≤ confidenceThreshold
      ∨ triggered σ ("pose" ++ toString d) = true ∨ σ.explosionActive = true) :
    (fires p v σ = false
      ∧ (checkPose p v σ).explosions = σ.explosions
      ∧ triggered (checkPose p v σ) ("pose" ++ toString d)
          = triggered σ ("pose" ++ toString d)
      ∧ (∀ k, k ≠ "pose" ++ toString d → (checkPose p v σ).poseStates k = σ.poseStates k)
      ∧ (checkPose p v σ).explosionActive = σ.explosionActive
      ∧ (checkPose p v σ).timers = σ.timers)
    ∧ (∀ (q : Prediction) (w : Video) (τ : State),
        poseNumber q.className = toString d →
          (∀ k, k ≠ "pose" ++ toString d → (checkPose q w τ).poseStates k = τ.poseStates k)
          ∧ (∀ d', 1 ≤ d' → d' ≤ 6 → d' ≠ d →
              (checkPose q w τ).poseStates ("pose" ++ toString d')
                = τ.poseStates ("pose" ++ toString d'))) := by
  have hl := isPoseLabel_of_pose p.className d h1 h6 hp hd
  have hk := poseKey_eq p.className d hd
  have hw2 : poseTimeWindows (poseNumber p.className) = some (s, e) := by rw [hd]; exact hw
  have hgen : ∀ (q : Prediction) (w : Video) (τ : State),
      poseNumber q.className = toString d →
        ∀ k, k ≠ "pose" ++ toString d → (checkPose q w τ).poseStates k = τ.poseStates k := by
    intro q w τ hq k hkne
    apply checkPose_poseStates_ne
    rw [poseKey_eq q.className d hq]; exact hkne
  have hf : fires p v σ = false := by
    cases hf : fires p v σ
    · rfl
    · have hc := (fires_iff p v σ s e hl hw2).mp hf
      rw [hk] at hc
      rcases hfail with a | a | a
      · exact absurd hc.2.2.1 (not_lt.mpr a)
      · rw [hc.2.2.2.1] at a; exact Bool.noConfusion a
      · rw [hc.2.2.2.2] at a; exact Bool.noConfusion a
  have hc : ¬ (p.probability > confidenceThreshold
      ∧ triggered σ (poseKey p.className) = false ∧ σ.explosionActive = false) := by
    intro hc
    have := (fires_iff p v σ s e hl hw2).mpr ⟨hs, he, hc⟩
    rw [hf] at this; exact Bool.noConfusion this
  have heq := checkPose_inside p v σ s e hl hw2 hs he
  rw [if_neg hc, hk] at heq
  refine ⟨⟨hf, ?_, ?_, hgen p v σ hd, ?_, ?_⟩, ?_⟩
  · rw [heq]; simp
  · rw [heq]; simp
  · rw [heq]; simp
  · rw [heq]; simp
  · intro q w τ hq
    refine ⟨hgen q w τ hq, ?_⟩
    intro d' a b c
    exact hgen q w τ hq _ (poseKey_ne d d' h1 h6 a b c)

/-- Instance of C3: pose 3 already triggered, a second call at 33.5 s with
confidence 0.85 after the cooldown has expired. -/
theorem checkPose_failing_condition_witness :
    (1 ≤ 3 ∧ 3 ≤ 6 ∧ includes (toLowerCase "Pose 3") "pose" = true
        ∧ poseNumber "Pose 3" = toString 3
        ∧ poseTimeWindows (toString 3) = some (33, 34)
        ∧ (33 : ℚ) ≤ 67 / 2 ∧ (67 / 2 : ℚ) ≤ 34
        ∧ triggered (cooldownExpired (triggerExplosion initialState "pose3"))
            ("pose" ++ toString 3) = true)
      ∧ fires ⟨"Pose 3", 17 / 20⟩ ⟨67 / 2⟩
          (cooldownExpired (triggerExplosion initialState "pose3")) = false :=
  ⟨⟨by decide, by decide, by decide, by decide, by decide, by norm_num, by norm_num,
      by decide⟩,
    (checkPose_failing_condition 3 ⟨"Pose 3", 17 / 20⟩ ⟨67 / 2⟩
      (cooldownExpired (triggerExplosion initialState "pose3")) 33 34 (by decide)
      (by decide) (by decide) (by decide) (by decide) (by norm_num) (by norm_num)
      (Or.inr (Or.inl (by decide)))).1.1⟩

/-! ## Runs of events -/

theorem run_nil (σ : State) : run [] σ = σ := rfl

theorem run_cons (x : Step) (xs : List Step) (σ : State) :
    run (x :: xs) σ = run xs (step σ x) := rfl

theorem run_append (xs ys : List Step) (σ : State) :
    run (xs ++ ys) σ = run ys (run xs σ) := by
  unfold run; exact List.foldl_append _ _ _ _

theorem cooldownExpired_poseStates (σ : State) :
    (cooldownExpired σ).poseStates = σ.poseStates := by
  unfold cooldownExpired; split <;> rfl

theorem cooldownExpired_explosions (σ : State) :
    (cooldownExpired σ).explosions = σ.explosions := by
  unfold cooldownExpired; split <;> rfl

/-- Events that are not calls with the property name `key` leave its entry
alone. -/
theorem run_poseStates_other (key : String) (steps : List Step) :
    ∀ σ : State,
      (∀ q w, Step.call q w ∈ steps → poseKey q.className ≠ key) →
      (run steps σ).poseStates key = σ.poseStates key := by
  induction steps with
  | nil => intro σ _; rfl
  | cons x xs ih =>
    intro σ h
    rw [run_cons, ih (step σ x) (fun q w hq => h q w (List.mem_cons_of_mem _ hq))]
    cases x with
    | call q w =>
      exact checkPose_poseStates_ne q w σ key
        (fun hk => h q w (List.mem_cons_self _ _) hk.symm)
    | expire => simp [step, cooldownExpired_poseStates]

/-- C5: for a label of pose d in 1..6 and any prior state, also one in which d
is triggered, a call for d with time outside the window of d (any
probability), then any events that are not calls for d (none, or the cooldown
expiry, or calls for other labels), then a call for d with time inside the
window and probability above the threshold while `explosionActive` is false,
fires. -/
theorem checkPose_rearm (d : Nat) (p1 p2 : Prediction) (v1 v2 : Video) (σ : State)
    (mid : List Step) (s e : ℚ) (h1 : 1 ≤ d) (h6 : d ≤ 6)
    (hp1 : includes (toLowerCase p1.className) "pose" = true)
    (hd1 : poseNumber p1.className = toString d)
    (hp2 : includes (toLowerCase p2.className) "pose" = true)
    (hd2 : poseNumber p2.className = toString d)
    (hw : poseTimeWindows (toString d) = some (s, e))
    (hout : v1.currentTime < s ∨ v1.currentTime > e)
    (hmid : ∀ q w, Step.call q w ∈ mid → poseNumber q.className ≠ toString d)
    (hs : s ≤ v2.currentTime) (he : v2.currentTime ≤ e)
    (hprob : p2.probability > confidenceThreshold)
    (hact : (run mid (checkPose p1 v1 σ)).explosionActive = false) :
    fires p2 v2 (run mid (checkPose p1 v1 σ)) = true := by
  have hl2 := isPoseLabel_of_pose p2.className d h1 h6 hp2 hd2
  have hk2 := poseKey_eq p2.className d hd2
  have hw2 : poseTimeWindows (poseNumber p2.className) = some (s, e) := by rw [hd2]; exact hw
  have hreset := (checkPose_outside_reset d p1 v1 σ s e h1 h6 hp1 hd1 hw hout).1
  have hkeep : (run mid (checkPose p1 v1 σ)).poseStates ("pose" ++ toString d)
      = some false := by
    rw [run_poseStates_other ("pose" ++ toString d) mid (checkPose p1 v1 σ), hreset]
    intro q w hq hk
    apply hmid q w hq
    unfold poseKey at hk
    have := congrArg String.data hk
    simp only [String.data_append] at this
    exact String.ext (List.append_cancel_left this)
  refine (fires_iff p2 v2 _ s e hl2 hw2).mpr ⟨hs, he, hprob, ?_, hact⟩
  rw [hk2]
  unfold triggered
  rw [hkeep]; rfl

/-- Instance of C5, the scenario of the specification: pose 3 fired at 33.5 s,
a call at 34.5 s, the cooldown expires, and a call at 33.2 s with confidence
0.9 fires again. -/
theorem checkPose_rearm_witness :
    (1 ≤ 3 ∧ 3 ≤ 6 ∧ includes (toLowerCase "Pose 3") "pose" = true
        ∧ poseNumber "Pose 3" = toString 3
        ∧ poseTimeWindows (toString 3) = some (33, 34)
        ∧ ((69 / 2 : ℚ) < 33 ∨ (69 / 2 : ℚ) > 34)
        ∧ (33 : ℚ) ≤ 166 / 5 ∧ (166 / 5 : ℚ) ≤ 34
        ∧ (9 / 10 : ℚ) > confidenceThreshold
        ∧ triggered (triggerExplosion initialState "pose3") "pose3" = true)
      ∧ fires ⟨"Pose 3", 9 / 10⟩ ⟨166 / 5⟩
          (run [Step.expire]
            (checkPose ⟨"Pose 3", 9 / 10⟩ ⟨69 / 2⟩ (triggerExplosion initialState "pose3")))
          = true :=
  ⟨⟨by decide, by decide, by decide, by decide, by decide, Or.inr (by norm_num),
      by norm_num, by norm_num, by norm_num [confidenceThreshold], by decide⟩,
    checkPose_rearm 3 ⟨"Pose 3", 9 / 10⟩ ⟨"Pose 3", 9 / 10⟩ ⟨69 / 2⟩ ⟨166 / 5⟩
      (triggerExplosion initialState "pose3") [Step.expire] 33 34 (by decide) (by decide)
      (by decide) (by decide) (by decide) (by decide) (by decide) (Or.inr (by norm_num))
      (by intro q w hq; simp at hq)
      (by norm_num) (by norm_num) (by norm_num [confidenceThreshold])
      (by
        have h := (checkPose_outside_reset 3 ⟨"Pose 3", 9 / 10⟩ ⟨69 / 2⟩
          (triggerExplosion initialState "pose3") 33 34 (by decide) (by decide) (by decide)
          (by decide) (by decide) (Or.inr (by norm_num))).2.2.2.2
        simp only [run, List.foldl, step, cooldownExpired]
        rw [h]
        rfl)⟩

/-! ## Labels without a window -/

theorem poseTimeWindows_none_of_not_six (k : String)
    (h : ¬ (k = "1" ∨ k = "2" ∨ k = "3" ∨ k = "4" ∨ k = "5" ∨ k = "6")) :
    poseTimeWindows k = none := by
  cases hw : poseTimeWindows k with
  | none => rfl
  | some w => exact absurd (poseTimeWindows_isSome k w hw) h

/-- What a call does when the digits of the label have no window. -/
theorem checkPose_no_window_facts (p : Prediction) (v : Video) (σ : State)
    (hw : poseTimeWindows (poseNumber p.className) = none) :
    fires p v σ = false
      ∧ (checkPose p v σ).explosions = σ.explosions
      ∧ (checkPose p v σ).explosionActive = σ.explosionActive
      ∧ (checkPose p v σ).timers = σ.timers
      ∧ (checkPose p v σ).URL = σ.URL
      ∧ (∀ k, triggered (checkPose p v σ) k = triggered σ k)
      ∧ (∀ k b, σ.poseStates k = some b → (checkPose p v σ).poseStates k = some b)
      ∧ (∀ k, k ≠ poseKey p.className → (checkPose p v σ).poseStates k = σ.poseStates k)
      ∧ (isPoseLabel p.className = true → σ.poseStates (poseKey p.className) = none →
          (checkPose p v σ).poseStates (poseKey p.className) = some false)
      ∧ (isPoseLabel p.className = true →
          ∀ k, (checkPose p v σ).poseStates k
            = if k = poseKey p.className ∧ σ.poseStates k = none then some false
              else σ.poseStates k)
      ∧ (isPoseLabel p.className = false → checkPose p v σ = σ) := by
  have hf := fires_no_window p v σ hw
  obtain ⟨a, b, c, u, _⟩ := checkPose_not_fires p v σ hf
  refine ⟨hf, a, b, c, u, ?_, ?_, ?_, ?_, ?_, ?_⟩
  · intro k
    cases h : isPoseLabel p.className
    · rw [checkPose_not_label p v σ h]
    · rw [checkPose_no_window p v σ h hw]; simp
  · intro k b hb
    cases h : isPoseLabel p.className
    · rw [checkPose_not_label p v σ h]; exact hb
    · rw [checkPose_no_window p v σ h hw]
      by_cases hk : k = poseKey p.className
      · subst hk
        rw [ensurePoseState_of_some σ _ b hb]; exact hb
      · rw [ensurePoseState_poseStates_ne σ _ k hk]; exact hb
  · intro k hk
    exact checkPose_poseStates_ne p v σ k hk
  · intro h hs
    rw [checkPose_no_window p v σ h hw, ensurePoseState_poseStates_self, hs]
    rfl
  · intro h k
    rw [checkPose_no_window p v σ h hw]
    by_cases hk : k = poseKey p.className
    · subst hk
      rw [ensurePoseState_poseStates_self]
      cases hs : σ.poseStates (poseKey p.className) <;> simp
    · rw [ensurePoseState_poseStates_ne σ _ k hk]
      simp [hk]
  · intro h
    exact checkPose_not_label p v σ h

/-- C7: when the label does not both contain "pose" and reduce, after
removing every non-digit, to one of "1" .. "6", `checkPose` does not call
`triggerExplosion`, leaves `explosionActive` (and the timers) unchanged and
sets no triggered flag to true, for every time, probability and prior
state. -/
theorem checkPose_unrecognized (p : Prediction) (v : Video) (σ : State)
    (h : ¬ (includes (toLowerCase p.className) "pose" = true
      ∧ (poseNumber p.className = "1" ∨ poseNumber p.className = "2"
        ∨ poseNumber p.className = "3" ∨ poseNumber p.className = "4"
        ∨ poseNumber p.className = "5" ∨ poseNumber p.className = "6"))) :
    fires p v σ = false
      ∧ (checkPose p v σ).explosions = σ.explosions
      ∧ (checkPose p v σ).explosionActive = σ.explosionActive
      ∧ (checkPose p v σ).timers = σ.timers
      ∧ (∀ k, (checkPose p v σ).poseStates k = some true → σ.poseStates k = some true)
      ∧ (∀ k, triggered (checkPose p v σ) k = triggered σ k) := by
  have key : isPoseLabel p.className = false
      ∨ poseTimeWindows (poseNumber p.className) = none := by
    by_cases hi : includes (toLowerCase p.className) "pose" = true
    · right
      exact poseTimeWindows_none_of_not_six _ (fun h6 => h ⟨hi, h6⟩)
    · left
      unfold isPoseLabel
      simp [hi]
  have hfacts : fires p v σ = false
      ∧ (checkPose p v σ).explosions = σ.explosions
      ∧ (checkPose p v σ).explosionActive = σ.explosionActive
      ∧ (checkPose p v σ).timers = σ.timers
      ∧ (∀ k, triggered (checkPose p v σ) k = triggered σ k) := by
    rcases key with hl | hw
    · rw [checkPose_not_label p v σ hl]
      exact ⟨fires_not_label p v σ hl, rfl, rfl, rfl, fun _ => rfl⟩
    · obtain ⟨a, b, c, d, _, f, _⟩ := checkPose_no_window_facts p v σ hw
      exact ⟨a, b, c, d, f⟩
  obtain ⟨a, b, c, d, f⟩ := hfacts
  refine ⟨a, b, c, d, ?_, f⟩
  intro k hk
  have := f k
  unfold triggered at this
  rw [hk] at this
  simpa using this.symm

/-- Instances of C7: the labels "Class 3", "pose", "Pose 7", "Pose 12" and
"pose 1 of 6", each with confidence 0.95 at 33.5 s on the initial state. -/
theorem checkPose_unrecognized_witness :
    (¬ (includes (toLowerCase "Class 3") "pose" = true
        ∧ (poseNumber "Class 3" = "1" ∨ poseNumber "Class 3" = "2"
          ∨ poseNumber "Class 3" = "3" ∨ poseNumber "Class 3" = "4"
          ∨ poseNumber "Class 3" = "5" ∨ poseNumber "Class 3" = "6")))
      ∧ fires ⟨"Class 3", 19 / 20⟩ ⟨67 / 2⟩ initialState = false
      ∧ fires ⟨"pose", 19 / 20⟩ ⟨67 / 2⟩ initialState = false
      ∧ fires ⟨"Pose 7", 19 / 20⟩ ⟨67 / 2⟩ initialState = false
      ∧ fires ⟨"Pose 12", 19 / 20⟩ ⟨67 / 2⟩ initialState = false
      ∧ fires ⟨"pose 1 of 6", 19 / 20⟩ ⟨67 / 2⟩ initialState = false :=
  ⟨by decide,
    (checkPose_unrecognized ⟨"Class 3", 19 / 20⟩ ⟨67 / 2⟩ initialState (by decide)).1,
    (checkPose_unrecognized ⟨"pose", 19 / 20⟩ ⟨67 / 2⟩ initialState (by decide)).1,
    (checkPose_unrecognized ⟨"Pose 7", 19 / 20⟩ ⟨67 / 2⟩ initialState (by decide)).1,
    (checkPose_unrecognized ⟨"Pose 12", 19 / 20⟩ ⟨67 / 2⟩ initialState (by decide)).1,
    (checkPose_unrecognized ⟨"pose 1 of 6", 19 / 20⟩ ⟨67 / 2⟩ initialState (by decide)).1⟩

/-- C8 fails as stated: the label "pose 01" has the digits "01", for which the
window table has no entry, yet it passes the numeric test of line 99 and the
call adds the property "pose01" to `poseStates`. -/
theorem checkPose_no_window_counterexample :
    poseNumber "pose 01" = "01"
      ∧ poseTimeWindows (poseNumber "pose 01") = none
      ∧ isPoseLabel "pose 01" = true
      ∧ initialState.poseStates "pose01" = none
      ∧ (checkPose ⟨"pose 01", 0⟩ ⟨0⟩ initialState).poseStates "pose01" = some false := by
  refine ⟨by decide, by decide, by decide, rfl, ?_⟩
  rw [checkPose_no_window _ _ _ (by decide) (by decide)]
  decide

/-- C8, amended: when the digits of the label have no window, `checkPose`
does not fire and leaves `explosionActive`, the timers, every existing entry
of `poseStates` and every triggered flag (absent counting as false) as they
were; no property other than the one of the label changes.  When the label
passes the test of line 99, the property of the label is created with
`triggered` false if it was missing, and `poseStates` is otherwise as before;
when the label does not pass the test, the whole state is unchanged. -/
theorem checkPose_no_window_amended (p : Prediction) (v : Video) (σ : State)
    (hw : poseTimeWindows (poseNumber p.className) = none) :
    fires p v σ = false
      ∧ (checkPose p v σ).explosions = σ.explosions
      ∧ (checkPose p v σ).explosionActive = σ.explosionActive
      ∧ (checkPose p v σ).timers = σ.timers
      ∧ (checkPose p v σ).URL = σ.URL
      ∧ (∀ k, triggered (checkPose p v σ) k = triggered σ k)
      ∧ (∀ k b, σ.poseStates k = some b → (checkPose p v σ).poseStates k = some b)
      ∧ (∀ k, k ≠ poseKey p.className → (checkPose p v σ).poseStates k = σ.poseStates k)
      ∧ (isPoseLabel p.className = true → σ.poseStates (poseKey p.className) = none →
          (checkPose p v σ).poseStates (poseKey p.className) = some false)
      ∧ (isPoseLabel p.className = true →
          ∀ k, (checkPose p v σ).poseStates k
            = if k = poseKey p.className ∧ σ.poseStates k = none then some false
              else σ.poseStates k)
      ∧ (isPoseLabel p.className = false → checkPose p v σ = σ) :=
  checkPose_no_window_facts p v σ hw

/-- Instance of the amended C8: the label "pose 01" on the initial state
passes the test of line 99, has no window, and the call creates the missing
property "pose01" with `triggered` false and changes nothing else. -/
theorem checkPose_no_window_amended_witness :
    (poseTimeWindows (poseNumber "pose 01") = none
        ∧ isPoseLabel "pose 01" = true
        ∧ poseKey "pose 01" = "pose01"
        ∧ initialState.poseStates (poseKey "pose 01") = none)
      ∧ (checkPose ⟨"pose 01", 19 / 20⟩ ⟨67 / 2⟩ initialState).poseStates (poseKey "pose 01")
          = some false
      ∧ (∀ k, k ≠ poseKey "pose 01" →
          (checkPose ⟨"pose 01", 19 / 20⟩ ⟨67 / 2⟩ initialState).poseStates k
            = initialState.poseStates k)
      ∧ (checkPose ⟨"pose 01", 19 / 20⟩ ⟨67 / 2⟩ initialState).explosionActive
          = initialState.explosionActive :=
  ⟨⟨by decide, by decide, by decide, rfl⟩,
    (checkPose_no_window_amended ⟨"pose 01", 19 / 20⟩ ⟨67 / 2⟩ initialState
      (by decide)).2.2.2.2.2.2.2.2.1 (by decide) rfl,
    (checkPose_no_window_amended ⟨"pose 01", 19 / 20⟩ ⟨67 / 2⟩ initialState
      (by decide)).2.2.2.2.2.2.2.1,
    (checkPose_no_window_amended ⟨"pose 01", 19 / 20⟩ ⟨67 / 2⟩ initialState
      (by decide)).2.2.1⟩

/-! ## Reset by `setModelURL` -/

/-- C10: after `setModelURL(url)`, from any prior state, `poseStates` is empty
and `explosionActive` is false, and the next `checkPose` call for a pose d in
1..6 with time inside the window of d and probability above the threshold
fires. -/
theorem setModelURL_resets (url : String) (σ : State) (d : Nat) (p : Prediction) (v : Video)
    (s e : ℚ) (h1 : 1 ≤ d) (h6 : d ≤ 6)
    (hp : includes (toLowerCase p.className) "pose" = true)
    (hd : poseNumber p.className = toString d)
    (hw : poseTimeWindows (toString d) = some (s, e))
    (hs : s ≤ v.currentTime) (he : v.currentTime ≤ e)
    (hprob : p.probability > confidenceThreshold) :
    (∀ k, (setModelURL url σ).poseStates k = none)
      ∧ (setModelURL url σ).explosionActive = false
      ∧ (setModelURL url σ).URL = url
      ∧ fires p v (setModelURL url σ) = true := by
  have hl := isPoseLabel_of_pose p.className d h1 h6 hp hd
  have hw2 : poseTimeWindows (poseNumber p.className) = some (s, e) := by rw [hd]; exact hw
  refine ⟨fun _ => rfl, rfl, rfl, ?_⟩
  exact (fires_iff p v _ s e hl hw2).mpr ⟨hs, he, hprob, rfl, rfl⟩

/-- Instance of C10: pose 3 triggered and an explosion active before the
reset; "Pose 3" with confidence 0.9 at 33.5 s fires right after it. -/
theorem setModelURL_resets_witness :
    (1 ≤ 3 ∧ 3 ≤ 6 ∧ includes (toLowerCase "Pose 3") "pose" = true
        ∧ poseNumber "Pose 3" = toString 3
        ∧ poseTimeWindows (toString 3) = some (33, 34)
        ∧ (33 : ℚ) ≤ 67 / 2 ∧ (67 / 2 : ℚ) ≤ 34
        ∧ (9 / 10 : ℚ) > confidenceThreshold)
      ∧ fires ⟨"Pose 3", 9 / 10⟩ ⟨67 / 2⟩
          (setModelURL "https://example.org/model/" (triggerExplosion initialState "pose3"))
          = true :=
  ⟨⟨by decide, by decide, by decide, by decide, by decide, by norm_num, by norm_num,
      by norm_num [confidenceThreshold]⟩,
    (setModelURL_resets "https://example.org/model/" (triggerExplosion initialState "pose3")
      3 ⟨"Pose 3", 9 / 10⟩ ⟨67 / 2⟩ 33 34 (by decide) (by decide) (by decide) (by decide)
      (by decide) (by norm_num) (by norm_num) (by norm_num [confidenceThreshold])).2.2.2⟩

/-! ## No retrigger while the flag is set -/

theorem poseNumber_of_poseKey (c : String) (d : Nat)
    (hk : poseKey c = "pose" ++ toString d) : poseNumber c = toString d := by
  unfold poseKey at hk
  have := congrArg String.data hk
  simp only [String.data_append] at this
  exact String.ext (List.append_cancel_left this)

theorem includes_of_isPoseLabel (c : String) (h : isPoseLabel c = true) :
    includes (toLowerCase c) "pose" = true := by
  unfold isPoseLabel at h
  simp only [Bool.and_eq_true] at h
  exact h.1.1

/-- A call whose time is inside the window, made while the flag of its pose is
set, changes neither the flag nor the trace. -/
theorem checkPose_keeps_triggered (key : String) (q : Prediction) (w : Video) (σ : State)
    (hin : isPoseLabel q.className = true → poseKey q.className = key →
      ∃ s e, poseTimeWindows (poseNumber q.className) = some (s, e)
        ∧ s ≤ w.currentTime ∧ w.currentTime ≤ e)
    (ht : σ.poseStates key = some true) :
    (checkPose q w σ).poseStates key = some true
      ∧ (checkPose q w σ).explosions.count key = σ.explosions.count key := by
  by_cases hk : poseKey q.className = key
  · cases hl : isPoseLabel q.className
    · rw [checkPose_not_label q w σ hl]; exact ⟨ht, rfl⟩
    · obtain ⟨s, e, hw, hs, he⟩ := hin hl hk
      have hc : ¬ (q.probability > confidenceThreshold
          ∧ triggered σ (poseKey q.className) = false ∧ σ.explosionActive = false) := by
        rintro ⟨_, b, _⟩
        rw [hk] at b
        unfold triggered at b
        rw [ht] at b
        simp at b
      rw [checkPose_inside q w σ s e hl hw hs he, if_neg hc, hk,
        ensurePoseState_of_some σ key true ht]
      exact ⟨ht, rfl⟩
  · have hk2 : key ≠ poseKey q.className := fun h => hk h.symm
    refine ⟨by rw [checkPose_poseStates_ne q w σ key hk2]; exact ht, ?_⟩
    rcases checkPose_cases q w σ with ⟨_, h, _⟩ | ⟨hf, _⟩
    · rw [h]
      simp [List.count_append, List.count_cons, hk]
    · rw [(checkPose_not_fires q w σ hf).1]

theorem run_keeps_triggered (key : String) (steps : List Step) :
    ∀ σ : State,
      (∀ q w, Step.call q w ∈ steps → isPoseLabel q.className = true →
        poseKey q.className = key →
        ∃ s e, poseTimeWindows (poseNumber q.className) = some (s, e)
          ∧ s ≤ w.currentTime ∧ w.currentTime ≤ e) →
      σ.poseStates key = some true →
      (run steps σ).poseStates key = some true
        ∧ (run steps σ).explosions.count key = σ.explosions.count key := by
  induction steps with
  | nil => intro σ _ ht; exact ⟨ht, rfl⟩
  | cons x xs ih =>
    intro σ hin ht
    rw [run_cons]
    have hin2 : ∀ q w, Step.call q w ∈ xs → isPoseLabel q.className = true →
        poseKey q.className = key →
        ∃ s e, poseTimeWindows (poseNumber q.className) = some (s, e)
          ∧ s ≤ w.currentTime ∧ w.currentTime ≤ e :=
      fun q w hq => hin q w (List.mem_cons_of_mem _ hq)
    cases x with
    | call q w =>
      obtain ⟨a, b⟩ := checkPose_keeps_triggered key q w σ
        (hin q w (List.mem_cons_self _ _)) ht
      obtain ⟨c, d⟩ := ih (step σ (Step.call q w)) hin2 a
      exact ⟨c, by rw [d]; exact b⟩
    | expire =>
      have a : (step σ Step.expire).poseStates key = some true := by
        simp only [step, cooldownExpired_poseStates]; exact ht
      obtain ⟨c, d⟩ := ih (step σ Step.expire) hin2 a
      refine ⟨c, ?_⟩
      rw [d]
      simp only [step, cooldownExpired_explosions]

theorem run_count_le (key : String) (steps : List Step) :
    ∀ σ : State,
      (∀ q w, Step.call q w ∈ steps → isPoseLabel q.className = true →
        poseKey q.className = key →
        ∃ s e, poseTimeWindows (poseNumber q.className) = some (s, e)
          ∧ s ≤ w.currentTime ∧ w.currentTime ≤ e) →
      (run steps σ).explosions.count key ≤ σ.explosions.count key + 1 := by
  induction steps with
  | nil => intro σ _; exact Nat.le_succ _
  | cons x xs ih =>
    intro σ hin
    rw [run_cons]
    have hin2 : ∀ q w, Step.call q w ∈ xs → isPoseLabel q.className = true →
        poseKey q.className = key →
        ∃ s e, poseTimeWindows (poseNumber q.className) = some (s, e)
          ∧ s ≤ w.currentTime ∧ w.currentTime ≤ e :=
      fun q w hq => hin q w (List.mem_cons_of_mem _ hq)
    cases x with
    | call q w =>
      rcases checkPose_cases q w σ with ⟨_, h, _⟩ | ⟨hf, _⟩
      · by_cases hk : poseKey q.className = key
        · have a : (step σ (Step.call q w)).poseStates key = some true := by
            simp only [step]; rw [h, hk]; simp
          have b : (step σ (Step.call q w)).explosions.count key
              = σ.explosions.count key + 1 := by
            simp only [step]; rw [h, hk]
            simp [List.count_append]
          rw [(run_keeps_triggered key xs (step σ (Step.call q w)) hin2 a).2, b]
        · have b : (step σ (Step.call q w)).explosions.count key
              = σ.explosions.count key := by
            simp only [step]; rw [h]
            simp [List.count_append, List.count_cons, hk]
          rw [← b]
          exact ih _ hin2
      · have b : (step σ (Step.call q w)).explosions = σ.explosions := by
          simp only [step]; exact (checkPose_not_fires q w σ hf).1
        rw [← b]
        exact ih _ hin2
    | expire =>
      have b : (step σ Step.expire).explosions = σ.explosions := by
        simp only [step, cooldownExpired_explosions]
      rw [← b]
      exact ih _ hin2

/-- The same call made twice in a row does not fire the second time. -/
theorem fires_repeated (q : Prediction) (w : Video) (σ : State) :
    fires q w (checkPose q w σ) = false := by
  cases hl : isPoseLabel q.className
  · exact fires_not_label q w _ hl
  · cases hw : poseTimeWindows (poseNumber q.className) with
    | none => exact fires_no_window q w _ hw
    | some sw =>
      obtain ⟨s, e⟩ := sw
      cases hf2 : fires q w (checkPose q w σ)
      · rfl
      · exfalso
        obtain ⟨hs, he, hprob, ht, ha⟩ := (fires_iff q w _ s e hl hw).mp hf2
        rcases checkPose_cases q w σ with ⟨_, h, _⟩ | ⟨hf, _⟩
        · rw [h] at ha
          simp at ha
        · have hact := (checkPose_not_fires q w σ hf).2.1
          rw [hact] at ha
          have hc : ¬ (q.probability > confidenceThreshold
              ∧ triggered σ (poseKey q.className) = false ∧ σ.explosionActive = false) := by
            intro hc
            have := (fires_iff q w σ s e hl hw).mpr ⟨hs, he, hc⟩
            rw [hf] at this; exact Bool.noConfusion this
          rw [checkPose_inside q w σ s e hl hw hs he, if_neg hc,
            ensurePoseState_triggered] at ht
          exact hc ⟨hprob, ht, ha⟩

/-- C4: for a pose d in 1..6 and a run of events (`checkPose` calls for any
label, cooldown expiries) from any state in which every call for d has its
time inside the window of d, `triggerExplosion` is called for d at most once;
once the flag of d is set it stays set to the end of the run and d does not
fire again, so neither the cooldown expiry nor any later call re-arms it;
and the same call repeated immediately never fires. -/
theorem no_retrigger_in_window (d : Nat) (steps : List Step) (σ : State)
    (_h1 : 1 ≤ d) (_h6 : d ≤ 6)
    (hin : ∀ q w, Step.call q w ∈ steps →
      includes (toLowerCase q.className) "pose" = true →
      poseNumber q.className = toString d →
      ∃ s e, poseTimeWindows (toString d) = some (s, e)
        ∧ s ≤ w.currentTime ∧ w.currentTime ≤ e) :
    (run steps σ).explosions.count ("pose" ++ toString d)
        ≤ σ.explosions.count ("pose" ++ toString d) + 1
      ∧ (∀ pre post, steps = pre ++ post →
          triggered (run pre σ) ("pose" ++ toString d) = true →
          triggered (run steps σ) ("pose" ++ toString d) = true
            ∧ (run steps σ).explosions.count ("pose" ++ toString d)
                = (run pre σ).explosions.count ("pose" ++ toString d))
      ∧ (∀ (q : Prediction) (w : Video) (τ : State), fires q w (checkPose q w τ) = false) := by
  have hgen : ∀ q w, Step.call q w ∈ steps → isPoseLabel q.className = true →
      poseKey q.className = "pose" ++ toString d →
      ∃ s e, poseTimeWindows (poseNumber q.className) = some (s, e)
        ∧ s ≤ w.currentTime ∧ w.currentTime ≤ e := by
    intro q w hq hl hk
    have hd := poseNumber_of_poseKey q.className d hk
    rw [hd]
    exact hin q w hq (includes_of_isPoseLabel _ hl) hd
  refine ⟨run_count_le _ steps σ hgen, ?_, fires_repeated⟩
  intro pre post hsplit ht
  subst hsplit
  rw [run_append]
  have ht2 : (run pre σ).poseStates ("pose" ++ toString d) = some true := by
    unfold triggered at ht
    simpa using ht
  obtain ⟨a, b⟩ := run_keeps_triggered _ post (run pre σ)
    (fun q w hq => hgen q w (List.mem_append_right _ hq)) ht2
  refine ⟨?_, b⟩
  unfold triggered; rw [a]; rfl

/-- In the example run the first call fires and the second does not. -/
theorem exampleRun_explosions : (run exampleRun initialState).explosions = ["pose3"] := by
  have hl : isPoseLabel "Pose 3" = true := by decide
  have hw : poseTimeWindows (poseNumber "Pose 3") = some (33, 34) := by decide
  have hk : poseKey "Pose 3" = "pose3" := by decide
  simp only [exampleRun, run, List.foldl, step]
  rw [checkPose_inside ⟨"Pose 3", 17 / 20⟩ ⟨67 / 2⟩ initialState 33 34 hl hw (by norm_num)
    (by norm_num)]
  rw [if_pos ⟨by norm_num [confidenceThreshold], by decide, rfl⟩]
  rw [checkPose_inside ⟨"Pose 3", 17 / 20⟩ ⟨67 / 2⟩ _ 33 34 hl hw (by norm_num) (by norm_num)]
  simp only [hk]
  rw [if_neg (by simp [triggered, cooldownExpired, triggerExplosion, ensurePoseState,
    initialState, setTriggered])]
  simp [cooldownExpired, triggerExplosion, ensurePoseState, initialState, setTriggered]

/-- Instance of C4: "Pose 3" at 33.5 s with confidence 0.85, the cooldown
expiry, and the same call again: one explosion for pose 3. -/
theorem no_retrigger_in_window_witness :
    (1 ≤ 3 ∧ 3 ≤ 6
        ∧ (∀ q w, Step.call q w ∈ exampleRun →
            includes (toLowerCase q.className) "pose" = true →
            poseNumber q.className = toString 3 →
            ∃ s e, poseTimeWindows (toString 3) = some (s, e)
              ∧ s ≤ w.currentTime ∧ w.currentTime ≤ e))
      ∧ (run exampleRun initialState).explosions = ["pose3"]
      ∧ (run exampleRun initialState).explosions.count ("pose" ++ toString 3)
          ≤ initialState.explosions.count ("pose" ++ toString 3) + 1 :=
  have hin : ∀ q w, Step.call q w ∈ exampleRun →
      includes (toLowerCase q.className) "pose" = true →
      poseNumber q.className = toString 3 →
      ∃ s e, poseTimeWindows (toString 3) = some (s, e)
        ∧ s ≤ w.currentTime ∧ w.currentTime ≤ e := by
    intro q w hq _ _
    have hw : w = ⟨67 / 2⟩ := by
      simp only [exampleRun, List.mem_cons, Step.call.injEq, List.mem_singleton,
        List.not_mem_nil, or_false] at hq
      rcases hq with ⟨_, h⟩ | h | ⟨_, h⟩
      · exact h
      · exact absurd h (by simp)
      · exact h
    subst hw
    exact ⟨33, 34, by decide, by norm_num, by norm_num⟩
  ⟨⟨by decide, by decide, hin⟩, exampleRun_explosions,
    (no_retrigger_in_window 3 exampleRun initialState (by decide) (by decide) hin).1⟩

/-! ## Mutual exclusion and cooldown -/

theorem cooldownInv_checkPose (p : Prediction) (v : Video) (σ : State)
    (h : CooldownInv σ) : CooldownInv (checkPose p v σ) := by
  rcases checkPose_cases p v σ with ⟨_, heq, _, ha⟩ | ⟨hf, _⟩
  · rcases h with ⟨a, _⟩ | ⟨_, b⟩
    · rw [ha] at a; exact Bool.noConfusion a
    · left
      rw [heq]
      simp [b]
  · obtain ⟨_, a, b, _⟩ := checkPose_not_fires p v σ hf
    unfold CooldownInv
    rw [a, b]; exact h

theorem cooldownInv_cooldownExpired (σ : State) (h : CooldownInv σ) :
    CooldownInv (cooldownExpired σ) := by
  rcases h with ⟨_, b⟩ | ⟨a, b⟩
  · right
    unfold cooldownExpired
    rw [b]
    exact ⟨rfl, rfl⟩
  · right
    unfold cooldownExpired
    rw [b]
    exact ⟨a, b⟩

theorem cooldownInv_run (steps : List Step) :
    ∀ σ : State, CooldownInv σ → CooldownInv (run steps σ) := by
  induction steps with
  | nil => intro σ h; exact h
  | cons x xs ih =>
    intro σ h
    rw [run_cons]
    apply ih
    cases x with
    | call q w => exact cooldownInv_checkPose q w σ h
    | expire => exact cooldownInv_cooldownExpired σ h

theorem fires_false_of_active (p : Prediction) (v : Video) (σ : State)
    (h : σ.explosionActive = true) : fires p v σ = false := by
  rcases checkPose_cases p v σ with ⟨_, _, _, ha⟩ | ⟨hf, _⟩
  · rw [ha] at h; exact Bool.noConfusion h
  · exact hf

/-- Calls made while an explosion is active leave the flag and the timers as
they are. -/
theorem run_calls_active (more : List Step) :
    ∀ σ : State, (∀ x ∈ more, x ≠ Step.expire) → σ.explosionActive = true →
      (run more σ).explosionActive = true ∧ (run more σ).timers = σ.timers
        ∧ (run more σ).explosions = σ.explosions := by
  induction more with
  | nil => intro σ _ h; exact ⟨h, rfl, rfl⟩
  | cons x xs ih =>
    intro σ hne h
    rw [run_cons]
    cases x with
    | call q w =>
      obtain ⟨a, b, c, _⟩ := checkPose_not_fires q w σ (fires_false_of_active q w σ h)
      obtain ⟨i, j, k⟩ := ih (step σ (Step.call q w))
        (fun x hx => hne x (List.mem_cons_of_mem _ hx))
        (by simp only [step]; rw [b]; exact h)
      refine ⟨i, ?_, ?_⟩
      · rw [j]; simp only [step]; exact c
      · rw [k]; simp only [step]; exact a
    | expire => exact absurd rfl (hne Step.expire (List.mem_cons_self _ _))

theorem predictLoop_nil (v : Video) (σ : State) : predictLoop [] v σ = σ := rfl

theorem predictLoop_cons (p : Prediction) (ps : List Prediction) (v : Video) (σ : State) :
    predictLoop (p :: ps) v σ = predictLoop ps v (checkPose p v σ) := rfl

/-- One pass of the loop of `predict` calls `triggerExplosion` at most once,
and not at all when it starts with an explosion active. -/
theorem predictLoop_explosions (prediction : List Prediction) (v : Video) :
    ∀ σ : State,
      (predictLoop prediction v σ).explosions.length ≤ σ.explosions.length + 1
        ∧ (σ.explosionActive = true →
            (predictLoop prediction v σ).explosions = σ.explosions
              ∧ (predictLoop prediction v σ).explosionActive = true) := by
  induction prediction with
  | nil => intro σ; exact ⟨Nat.le_succ _, fun h => ⟨rfl, h⟩⟩
  | cons p ps ih =>
    intro σ
    rw [predictLoop_cons]
    have hact : σ.explosionActive = true →
        (predictLoop ps v (checkPose p v σ)).explosions = σ.explosions
          ∧ (predictLoop ps v (checkPose p v σ)).explosionActive = true := by
      intro h
      obtain ⟨a, b, _⟩ := checkPose_not_fires p v σ (fires_false_of_active p v σ h)
      obtain ⟨c, d⟩ := (ih (checkPose p v σ)).2 (by rw [b]; exact h)
      exact ⟨by rw [c, a], d⟩
    refine ⟨?_, hact⟩
    rcases checkPose_cases p v σ with ⟨_, heq, _, _⟩ | ⟨hf, _⟩
    · have hlen : (checkPose p v σ).explosions.length = σ.explosions.length + 1 := by
        rw [heq]; simp
      have hact2 : (checkPose p v σ).explosionActive = true := by rw [heq]; simp
      rw [((ih (checkPose p v σ)).2 hact2).1, hlen]
    · rw [← (checkPose_not_fires p v σ hf).1]
      exact (ih (checkPose p v σ)).1

/-- C6: in every state reached from the initial state by `checkPose` calls
and cooldown expiries, `explosionActive` is true exactly when a timer is
pending, at most one timer is pending and it is the 300 ms one, and no call
fires while `explosionActive` is true; after a fire every further call, at
any playback time, leaves `explosionActive` true and the timer pending until
the expiry, which clears both; and one pass of the loop of `predict` fires at
most once. -/
theorem cooldown_mutual_exclusion (steps : List Step) :
    ((run steps initialState).explosionActive = true
        ↔ (run steps initialState).timers ≠ [])
      ∧ (run steps initialState).timers.length ≤ 1
      ∧ (∀ x ∈ (run steps initialState).timers, x = 300)
      ∧ (∀ p v, (run steps initialState).explosionActive = true →
          fires p v (run steps initialState) = false
            ∧ (checkPose p v (run steps initialState)).explosions
                = (run steps initialState).explosions)
      ∧ (∀ p v, fires p v (run steps initialState) = true →
          ∀ more : List Step, (∀ x ∈ more, x ≠ Step.expire) →
            (run more (checkPose p v (run steps initialState))).explosionActive = true
              ∧ (run more (checkPose p v (run steps initialState))).timers = [300]
              ∧ (run more (checkPose p v (run steps initialState))).explosions
                  = (checkPose p v (run steps initialState)).explosions
              ∧ (cooldownExpired
                  (run more (checkPose p v (run steps initialState)))).explosionActive = false
              ∧ (cooldownExpired
                  (run more (checkPose p v (run steps initialState)))).timers = [])
      ∧ (∀ (prediction : List Prediction) (v : Video),
          (predictLoop prediction v (run steps initialState)).explosions.length
            ≤ (run steps initialState).explosions.length + 1) := by
  have hinv : CooldownInv (run steps initialState) :=
    cooldownInv_run steps initialState (Or.inr ⟨rfl, rfl⟩)
  refine ⟨?_, ?_, ?_, ?_, ?_, ?_⟩
  · rcases hinv with ⟨a, b⟩ | ⟨a, b⟩
    · rw [a, b]; simp
    · rw [a, b]; simp
  · rcases hinv with ⟨_, b⟩ | ⟨_, b⟩ <;> rw [b] <;> simp
  · rcases hinv with ⟨_, b⟩ | ⟨_, b⟩ <;> rw [b] <;> simp
  · intro p v h
    have hf := fires_false_of_active p v _ h
    exact ⟨hf, (checkPose_not_fires p v _ hf).1⟩
  · intro p v hf more hne
    have hinv2 : CooldownInv (checkPose p v (run steps initialState)) :=
      cooldownInv_checkPose p v _ hinv
    have hact : (checkPose p v (run steps initialState)).explosionActive = true := by
      rcases checkPose_cases p v (run steps initialState) with ⟨_, heq, _, _⟩ | ⟨h0, _⟩
      · rw [heq]; simp
      · rw [hf] at h0; exact Bool.noConfusion h0
    have htim : (checkPose p v (run steps initialState)).timers = [300] := by
      rcases hinv2 with ⟨_, b⟩ | ⟨a, _⟩
      · exact b
      · rw [hact] at a; exact Bool.noConfusion a
    obtain ⟨a, b, c⟩ := run_calls_active more _ hne hact
    rw [htim] at b
    refine ⟨a, b, c, ?_, ?_⟩
    · unfold cooldownExpired; rw [b]
    · unfold cooldownExpired; rw [b]
  · intro prediction v
    exact (predictLoop_explosions prediction v _).1

/-! ## One frame -/

theorem poseTimeWindows_values (d : Nat) (h1 : 1 ≤ d) (h6 : d ≤ 6) (s e : ℚ)
    (hw : poseTimeWindows (toString d) = some (s, e)) :
    d = 1 ∧ s = 22 ∧ e = 23 ∨ d = 2 ∧ s = 25 ∧ e = 26 ∨ d = 3 ∧ s = 33 ∧ e = 34
      ∨ d = 4 ∧ s = 37 ∧ e = 38 ∨ d = 5 ∧ s = 42 ∧ e = 43 ∨ d = 6 ∧ s = 58 ∧ e = 59 := by
  obtain ⟨s0, e0, hw0, _, htab⟩ := poseTimeWindows_pose d h1 h6
  rw [hw] at hw0
  injection hw0 with hpair
  injection hpair with hs he
  subst hs he
  exact htab

/-- The six windows are pairwise disjoint. -/
theorem poseTimeWindows_disjoint (d d' : Nat) (h1 : 1 ≤ d) (h6 : d ≤ 6) (h1' : 1 ≤ d')
    (h6' : d' ≤ 6) (s e s' e' t : ℚ)
    (hw : poseTimeWindows (toString d) = some (s, e))
    (hw' : poseTimeWindows (toString d') = some (s', e'))
    (hs : s ≤ t) (he : t ≤ e) (hs' : s' ≤ t) (he' : t ≤ e') : d = d' := by
  rcases poseTimeWindows_values d h1 h6 s e hw with
    ⟨x, y, z⟩ | ⟨x, y, z⟩ | ⟨x, y, z⟩ | ⟨x, y, z⟩ | ⟨x, y, z⟩ | ⟨x, y, z⟩ <;>
  rcases poseTimeWindows_values d' h1' h6' s' e' hw' with
    ⟨x', y', z'⟩ | ⟨x', y', z'⟩ | ⟨x', y', z'⟩ | ⟨x', y', z'⟩ | ⟨x', y', z'⟩ | ⟨x', y', z'⟩ <;>
  subst x y z x' y' z' <;> first | rfl | (exfalso; linarith)

/-- At a time outside the window of d no call can set the flag of d. -/
theorem checkPose_keeps_reset (d : Nat) (q : Prediction) (v : Video) (σ : State) (s e : ℚ)
    (hw : poseTimeWindows (toString d) = some (s, e))
    (ht : v.currentTime < s ∨ v.currentTime > e)
    (h : σ.poseStates ("pose" ++ toString d) = some false) :
    (checkPose q v σ).poseStates ("pose" ++ toString d) = some false := by
  by_cases hk : poseKey q.className = "pose" ++ toString d
  · cases hl : isPoseLabel q.className
    · rw [checkPose_not_label q v σ hl]; exact h
    · have hd := poseNumber_of_poseKey q.className d hk
      have hw2 : poseTimeWindows (poseNumber q.className) = some (s, e) := by
        rw [hd]; exact hw
      rw [checkPose_outside q v σ s e hl hw2 ht, hk]
      simp
  · rw [checkPose_poseStates_ne q v σ _ (fun h0 => hk h0.symm)]; exact h

theorem predictLoop_keeps_reset (d : Nat) (v : Video) (s e : ℚ)
    (hw : poseTimeWindows (toString d) = some (s, e))
    (ht : v.currentTime < s ∨ v.currentTime > e) (prediction : List Prediction) :
    ∀ σ : State, σ.poseStates ("pose" ++ toString d) = some false →
      (predictLoop prediction v σ).poseStates ("pose" ++ toString d) = some false := by
  induction prediction with
  | nil => intro σ h; exact h
  | cons q qs ih =>
    intro σ h
    rw [predictLoop_cons]
    exact ih _ (checkPose_keeps_reset d q v σ s e hw ht h)

/-- A loop that evaluates pose d at a time outside its window ends with the
flag of d reset. -/
theorem predictLoop_resets (d : Nat) (h1 : 1 ≤ d) (h6 : d ≤ 6) (v : Video) (s e : ℚ)
    (hw : poseTimeWindows (toString d) = some (s, e))
    (ht : v.currentTime < s ∨ v.currentTime > e) (prediction : List Prediction) :
    ∀ σ : State,
      (∃ p ∈ prediction, includes (toLowerCase p.className) "pose" = true
        ∧ poseNumber p.className = toString d) →
      (predictLoop prediction v σ).poseStates ("pose" ++ toString d) = some false := by
  induction prediction with
  | nil => intro σ h; obtain ⟨p, hp, _⟩ := h; exact absurd hp (List.not_mem_nil p)
  | cons q qs ih =>
    intro σ h
    rw [predictLoop_cons]
    obtain ⟨p, hp, hinc, hd⟩ := h
    rcases List.mem_cons.mp hp with heq | hmem
    · subst heq
      exact predictLoop_keeps_reset d v s e hw ht qs _
        (checkPose_outside_reset d p v σ s e h1 h6 hinc hd hw ht).1
    · exact ih _ ⟨p, hmem, hinc, hd⟩

/-- C9: after one pass of the loop of `predict` that evaluates every one of
the six poses at the same playback time, in any order, with any
probabilities and from any prior state, every pose whose flag is set has the
time inside its own window; hence at most one of the six flags is set, and
none when the time lies in no window. -/
theorem predictLoop_triggered_in_window (prediction : List Prediction) (v : Video)
    (σ : State)
    (hall : ∀ d, 1 ≤ d → d ≤ 6 →
      ∃ p ∈ prediction, includes (toLowerCase p.className) "pose" = true
        ∧ poseNumber p.className = toString d) :
    (∀ d, 1 ≤ d → d ≤ 6 →
        triggered (predictLoop prediction v σ) ("pose" ++ toString d) = true →
        ∃ s e, poseTimeWindows (toString d) = some (s, e)
          ∧ s ≤ v.currentTime ∧ v.currentTime ≤ e)
      ∧ (∀ d d', 1 ≤ d → d ≤ 6 → 1 ≤ d' → d' ≤ 6 →
          triggered (predictLoop prediction v σ) ("pose" ++ toString d) = true →
          triggered (predictLoop prediction v σ) ("pose" ++ toString d') = true → d = d')
      ∧ ((∀ d, 1 ≤ d → d ≤ 6 → ∀ s e, poseTimeWindows (toString d) = some (s, e) →
            v.currentTime < s ∨ v.currentTime > e) →
          ∀ d, 1 ≤ d → d ≤ 6 →
            triggered (predictLoop prediction v σ) ("pose" ++ toString d) = false) := by
  have hfirst : ∀ d, 1 ≤ d → d ≤ 6 →
      triggered (predictLoop prediction v σ) ("pose" ++ toString d) = true →
      ∃ s e, poseTimeWindows (toString d) = some (s, e)
        ∧ s ≤ v.currentTime ∧ v.currentTime ≤ e := by
    intro d h1 h6 htrig
    obtain ⟨s, e, hw, _, _⟩ := poseTimeWindows_pose d h1 h6
    refine ⟨s, e, hw, ?_⟩
    by_contra hn
    have ht : v.currentTime < s ∨ v.currentTime > e := by
      by_contra hn2
      push_neg at hn2
      exact hn ⟨hn2.1, hn2.2⟩
    have := predictLoop_resets d h1 h6 v s e hw ht prediction σ (hall d h1 h6)
    unfold triggered at htrig
    rw [this] at htrig
    simp at htrig
  refine ⟨hfirst, ?_, ?_⟩
  · intro d d' h1 h6 h1' h6' ha hb
    obtain ⟨s, e, hw, hs, he⟩ := hfirst d h1 h6 ha
    obtain ⟨s', e', hw', hs', he'⟩ := hfirst d' h1' h6' hb
    exact poseTimeWindows_disjoint d d' h1 h6 h1' h6' s e s' e' v.currentTime hw hw'
      hs he hs' he'
  · intro hno d h1 h6
    cases htrig : triggered (predictLoop prediction v σ) ("pose" ++ toString d)
    · rfl
    · obtain ⟨s, e, hw, hs, he⟩ := hfirst d h1 h6 htrig
      rcases hno d h1 h6 s e hw with h | h
      · exact absurd hs (not_le.mpr h)
      · exact absurd he (not_le.mpr h)

/-- Instance of C9: the six poses evaluated at 33.5 s from a state in which
pose 5 is triggered; the flag of pose 5 is reset by the frame. -/
theorem predictLoop_triggered_in_window_witness :
    (∀ d, 1 ≤ d → d ≤ 6 →
        ∃ p ∈ exampleFrame, includes (toLowerCase p.className) "pose" = true
          ∧ poseNumber p.className = toString d)
      ∧ triggered (triggerExplosion initialState "pose5") ("pose" ++ toString 5) = true
      ∧ triggered (predictLoop exampleFrame ⟨67 / 2⟩ (triggerExplosion initialState "pose5"))
          ("pose" ++ toString 5) = false :=
  have hall : ∀ d, 1 ≤ d → d ≤ 6 →
      ∃ p ∈ exampleFrame, includes (toLowerCase p.className) "pose" = true
        ∧ poseNumber p.className = toString d := by
    intro d h1 h6
    interval_cases d
    · exact ⟨⟨"Pose 1", 1 / 100⟩, by simp [exampleFrame], by decide, by decide⟩
    · exact ⟨⟨"Pose 2", 1 / 100⟩, by simp [exampleFrame], by decide, by decide⟩
    · exact ⟨⟨"Pose 3", 9 / 10⟩, by simp [exampleFrame], by decide, by decide⟩
    · exact ⟨⟨"Pose 4", 1 / 100⟩, by simp [exampleFrame], by decide, by decide⟩
    · exact ⟨⟨"Pose 5", 3 / 100⟩, by simp [exampleFrame], by decide, by decide⟩
    · exact ⟨⟨"Pose 6", 1 / 25⟩, by simp [exampleFrame], by decide, by decide⟩
  ⟨hall, by decide, by
    cases h : triggered (predictLoop exampleFrame ⟨67 / 2⟩
        (triggerExplosion initialState "pose5")) ("pose" ++ toString 5)
    · rfl
    · obtain ⟨s, e, hw, hs, _⟩ := (predictLoop_triggered_in_window exampleFrame ⟨67 / 2⟩
        (triggerExplosion initialState "pose5") hall).1 5 (by decide) (by decide) h
      have h5 : poseTimeWindows (toString 5) = some (42, 43) := by decide
      rw [h5] at hw
      injection hw with hpair
      injection hpair with a b
      subst a b
      norm_num at hs⟩

end PoseTrigger
